import Mathlib

/-!
# Verification of a hand-rolled HTTP/1.1-like client/server codec

Shallow embedding of `src/server/server.go` and `src/client/client.go`.
Go strings and byte slices are modelled as `List Nat` (one `Nat` per byte);
Go's `int` fields are modelled as `Int` where the sign can matter.
The external collaborators (net/url parsing, json/xml marshalling,
gzip/deflate compression) are out of scope per the specification and are
modelled as parameters or by their documented interface.
-/

namespace Jarkom

/-- Bytes of an ASCII Lean string literal (all literals used are ASCII,
so `Char.toNat` is exactly the UTF-8 byte). -/
def strB (s : String) : List Nat := s.data.map Char.toNat

/-- ASCII lowercasing of one byte, the ASCII fragment of Go `strings.ToLower`. -/
def lowerByte (c : Nat) : Nat := if 65 ≤ c ∧ c ≤ 90 then c + 32 else c

/-- Byte-wise ASCII lowercasing, modelling Go `strings.ToLower` on the
ASCII header values this program compares. -/
def toLowerB (l : List Nat) : List Nat := l.map lowerByte

/-- Prepend a byte to the first piece of a split result. -/
def consHead (c : Nat) : List (List Nat) → List (List Nat)
  | [] => [[c]]
  | r :: rs => (c :: r) :: rs

/-- Go `strings.Split(s, sep)` for a one-byte separator. -/
def split1 (sep : Nat) : List Nat → List (List Nat)
  | [] => [[]]
  | c :: rest => if c = sep then [] :: split1 sep rest else consHead c (split1 sep rest)

/-- Go `strings.Split(s, sep)` for a two-byte separator `[a, b]`
(used with `[13, 10]`, i.e. CRLF). -/
def splitSep2 (a b : Nat) : List Nat → List (List Nat)
  | [] => [[]]
  | [c] => [[c]]
  | c1 :: c2 :: rest =>
    if c1 = a ∧ c2 = b then [] :: splitSep2 a b rest
    else consHead c1 (splitSep2 a b (c2 :: rest))

/-- Go `strings.Join(pieces, sep)` for the two-byte separator `[a, b]`. -/
def joinSep2 (a b : Nat) : List (List Nat) → List Nat
  | [] => []
  | [x] => x
  | x :: y :: xs => x ++ a :: b :: joinSep2 a b (y :: xs)

/-- Go `strings.SplitN(s, sep, 2)` for a one-byte separator: split at the
first occurrence; `none` when the separator does not occur. -/
def splitFirst1 (sep : Nat) : List Nat → Option (List Nat × List Nat)
  | [] => none
  | c :: rest =>
    if c = sep then some ([], rest)
    else (splitFirst1 sep rest).map (fun p => (c :: p.1, p.2))

/-- Go `strings.SplitN(s, sep, 2)` for the two-byte separator `[a, b]`
(used with `[58, 32]`, i.e. ": "). -/
def splitFirst2 (a b : Nat) : List Nat → Option (List Nat × List Nat)
  | [] => none
  | [_] => none
  | c1 :: c2 :: rest =>
    if c1 = a ∧ c2 = b then some ([], rest)
    else (splitFirst2 a b (c2 :: rest)).map (fun p => (c1 :: p.1, p.2))

/-- Go `strings.Index(s, pat)`: index of the first occurrence of `pat`,
`none` when absent. -/
def idxOfSeq (pat : List Nat) : List Nat → Option Nat
  | [] => if pat = [] then some 0 else none
  | c :: rest =>
    if pat.isPrefixOf (c :: rest) then some 0
    else (idxOfSeq pat rest).map (· + 1)

/-- `pat` occurs in the haystack starting at some position. -/
def containsFrom (pat : List Nat) : List Nat → Bool
  | [] => pat.isEmpty
  | c :: rest => pat.isPrefixOf (c :: rest) || containsFrom pat rest

/-- Go `strings.Contains(s, pat)`. -/
def goContains (s pat : List Nat) : Bool := containsFrom pat s

/-- Go `unicode.IsSpace` on the ASCII bytes Go's `strings.TrimSpace` trims. -/
def isSpaceB (c : Nat) : Bool := c = 32 ∨ c = 9 ∨ c = 10 ∨ c = 11 ∨ c = 12 ∨ c = 13

/-- Go `strings.TrimSpace`. -/
def trimSpace (l : List Nat) : List Nat :=
  ((l.dropWhile isSpaceB).reverse.dropWhile isSpaceB).reverse

/-- Numeric value of a list of ASCII digit bytes (most significant first). -/
def digitsVal (l : List Nat) : Nat := l.foldl (fun a d => 10 * a + (d - 48)) 0

/-- All bytes are ASCII digits. -/
def allDigits (l : List Nat) : Bool := l.all (fun d => 48 ≤ d ∧ d ≤ 57)

/-- Go `strconv.Atoi`: optional sign, then a nonempty run of digits; any
other shape is an error (`none`). Overflow is not modelled. -/
def atoiZ (l : List Nat) : Option Int :=
  if l = [] then none
  else if l.headI = 45 then
    (if l.tail ≠ [] ∧ allDigits l.tail then some (-(digitsVal l.tail : Int)) else none)
  else if l.headI = 43 then
    (if l.tail ≠ [] ∧ allDigits l.tail then some ((digitsVal l.tail : Int)) else none)
  else if allDigits l then some ((digitsVal l : Int)) else none

/-- Decimal digit bytes of `n`, least significant first (`fuel` bounds the
recursion; any `fuel ≥ n` gives the digits of `n`). -/
def natToDecAux : Nat → Nat → List Nat
  | 0, _ => []
  | fuel + 1, n => if n = 0 then [] else (n % 10 + 48) :: natToDecAux fuel (n / 10)

/-- Decimal digit bytes of a natural number, most significant first
(Go `fmt.Sprintf("%d", n)` for non-negative `n`). -/
def natToDec (n : Nat) : List Nat :=
  if n = 0 then [48] else (natToDecAux n n).reverse

/-- Go `fmt.Sprintf("%d", z)` for an `int`. -/
def intToDec (z : Int) : List Nat :=
  if z < 0 then 45 :: natToDec z.natAbs else natToDec z.toNat

/-! ## Data model (`server.go:24-50`, `client.go:24-50`) -/

/-- Go `Student` struct. -/
structure Student where
  Nama : List Nat
  Npm : List Nat
deriving DecidableEq

/-- Go `GreetResponse` struct: the greeting payload. -/
structure GreetResponse where
  Student : Student
  Greeter : List Nat
deriving DecidableEq

/-- Go `HttpRequest` struct. -/
structure HttpRequest where
  Method : List Nat
  Uri : List Nat
  Version : List Nat
  Host : List Nat
  Accept : List Nat
  AcceptEncoding : List Nat
deriving DecidableEq

/-- Go `HttpResponse` struct.  `ContentLength` is a Go `int`, hence `Int`. -/
structure HttpResponse where
  Version : List Nat
  StatusCode : List Nat
  ContentType : List Nat
  ContentEncoding : List Nat
  ContentLength : Int
  Data : List Nat
deriving DecidableEq

/-- Server constant `STUDENT_NAME` (`server.go:20`). -/
def STUDENT_NAME : String := "Muhammad Raihan Maulana"

/-- Server constant `STUDENT_NPM` (`server.go:21`). -/
def STUDENT_NPM : String := "2306216636"

/-- Shared constant `BUFFER_SIZE` (`server.go:19`, `client.go:21`). -/
def BUFFER_SIZE : Nat := 2048

/-! ## Negotiator (`server.go:237-275`) -/

/-- `determineContentType` (`server.go:237-254`); the source lowercases
`accept` once up front, here written inline at each use. -/
def determineContentType (accept : List Nat) : List Nat :=
  if goContains (toLowerB accept) (strB ",") || goContains (toLowerB accept) (strB "q=") then
    strB "application/json"
  else if goContains (toLowerB accept) (strB "application/xml") then strB "application/xml"
  else if goContains (toLowerB accept) (strB "application/json") then strB "application/json"
  else strB "application/json"

/-- `determineEncoding` (`server.go:256-275`); same inlining of the
lowercased value. -/
def determineEncoding (acceptEncoding : List Nat) : List Nat :=
  if goContains (toLowerB acceptEncoding) (strB ",")
      || goContains (toLowerB acceptEncoding) (strB "q=") then strB "gzip"
  else if goContains (toLowerB acceptEncoding) (strB "deflate") then strB "deflate"
  else if goContains (toLowerB acceptEncoding) (strB "gzip") then strB "gzip"
  else if toLowerB acceptEncoding = strB "none" then strB "none"
  else strB "gzip"

/-! ## Codec — request (`client.go:241-257`, `server.go:277-322`) -/

/-- `RequestEncoder` (`client.go:241-257`). -/
def RequestEncoder (req : HttpRequest) : List Nat :=
  req.Method ++ 32 :: req.Uri ++ 32 :: req.Version ++ [13, 10]
    ++ strB "Host: " ++ req.Host ++ [13, 10]
    ++ strB "Accept: " ++ req.Accept ++ [13, 10]
    ++ (if req.AcceptEncoding ≠ strB "none" then
          strB "Accept-Encoding: " ++ req.AcceptEncoding ++ [13, 10] else [])
    ++ [13, 10]

/-- One request header line (`server.go:300-313`): split on the first ": ",
match the lowercased name against the three recognized headers. -/
def applyReqHeader (r : HttpRequest) (line : List Nat) : HttpRequest :=
  match splitFirst2 58 32 line with
  | none => r
  | some nv =>
    let nl := toLowerB nv.1
    if nl = strB "host" then { r with Host := nv.2 }
    else if nl = strB "accept" then { r with Accept := nv.2 }
    else if nl = strB "accept-encoding" then { r with AcceptEncoding := nv.2 }
    else r

/-- The request header loop (`server.go:294-314`): lines 1.. up to the first
empty line. -/
def reqScan : HttpRequest → List (List Nat) → HttpRequest
  | r, [] => r
  | r, l :: ls => if l = [] then r else reqScan (applyReqHeader r l) ls

/-- The body of `RequestDecoder` over the CRLF-split lines. -/
def reqDecodeLines (lines : List (List Nat)) : HttpRequest :=
  let r0 : HttpRequest := ⟨[], [], [], [], [], []⟩
  let r1 :=
    match lines with
    | [] => r0
    | l0 :: _ =>
      let parts := split1 32 l0
      if 3 ≤ parts.length then
        { r0 with Method := parts.getD 0 [], Uri := parts.getD 1 [],
                  Version := parts.getD 2 [] }
      else r0
  let r2 := reqScan r1 lines.tail
  if r2.AcceptEncoding = [] then { r2 with AcceptEncoding := strB "none" } else r2

/-- `RequestDecoder` (`server.go:277-322`). -/
def RequestDecoder (bytestream : List Nat) : HttpRequest :=
  reqDecodeLines (splitSep2 13 10 bytestream)

/-! ## Codec — response (`server.go:340-367`, `client.go:189-239`) -/

/-- `ResponseEncoder` (`server.go:340-367`). -/
def ResponseEncoder (res : HttpResponse) : List Nat :=
  res.Version ++ 32 :: res.StatusCode ++ strB " OK" ++ [13, 10]
    ++ (if res.ContentType ≠ [] then strB "Content-Type: " ++ res.ContentType ++ [13, 10]
        else [])
    ++ (if res.ContentEncoding ≠ [] ∧ res.ContentEncoding ≠ strB "none" then
          strB "Content-Encoding: " ++ res.ContentEncoding ++ [13, 10] else [])
    ++ strB "Content-Length: " ++ intToDec res.ContentLength ++ [13, 10]
    ++ [13, 10]
    ++ res.Data

/-- One response header line (`client.go:214-229`). -/
def applyRespHeader (r : HttpResponse) (line : List Nat) : HttpResponse :=
  match splitFirst2 58 32 line with
  | none => r
  | some nv =>
    let nl := toLowerB nv.1
    if nl = strB "content-type" then { r with ContentType := nv.2 }
    else if nl = strB "content-encoding" then { r with ContentEncoding := nv.2 }
    else if nl = strB "content-length" then
      match atoiZ nv.2 with
      | some z => { r with ContentLength := z }
      | none => r
    else r

/-- The response header loop (`client.go:203-230`): `i` is the running line
index; the pair's second component is Go's `headerEndIndex`, left `0` when no
empty line occurs.  The empty-line check precedes the skip of line 0, exactly
as in the source. -/
def respScan : HttpResponse → List (List Nat) → Nat → HttpResponse × Nat
  | r, [], _ => (r, 0)
  | r, l :: ls, i =>
    if l = [] then (r, i)
    else if i = 0 then respScan r ls (i + 1)
    else respScan (applyRespHeader r l) ls (i + 1)

/-- The body of `ResponseDecoder` over the CRLF-split lines. -/
def respDecodeLines (lines : List (List Nat)) : HttpResponse :=
  let r0 : HttpResponse := ⟨[], [], [], [], 0, []⟩
  let r1 :=
    match lines with
    | [] => r0
    | l0 :: _ =>
      let parts := split1 32 l0
      if 3 ≤ parts.length then
        { r0 with Version := parts.getD 0 [], StatusCode := parts.getD 1 [] }
      else r0
  let sc := respScan r1 lines 0
  if sc.2 < lines.length - 1 then
    { sc.1 with Data := joinSep2 13 10 (lines.drop (sc.2 + 1)) }
  else sc.1

/-- `ResponseDecoder` (`client.go:189-239`). -/
def ResponseDecoder (bytestream : List Nat) : HttpResponse :=
  respDecodeLines (splitSep2 13 10 bytestream)

/-! ## Router and handlers (`server.go:117-235`)

`net/url.Parse` and `Values.Get`, `encoding/json`, `encoding/xml`,
`compress/gzip` and `compress/flate` are external collaborators (spec §1,
§6); the router is therefore verified over their outcomes: the parse result
is an explicit `Option UrlParts` argument and the marshallers/compressors
are function arguments. -/

/-- Result of the external `net/url.Parse` plus `Query().Get("name")` on the
request target: the parsed path and the `name` query parameter (`[]` when the
parameter is absent, as Go's `Values.Get` returns `""` then). `none` models a
parse error. -/
structure UrlParts where
  path : List Nat
  nameQ : List Nat
deriving DecidableEq

/-- Modelled from the spec: `encoding/json.Marshal` output for the Greeting
payload (spec §6 interface; field names are the Go struct names; the string
values in all verified exchanges need no JSON escaping). -/
def jsonGreet (g : GreetResponse) : List Nat :=
  strB "\x7b\"Student\":\x7b\"Nama\":\"" ++ g.Student.Nama
    ++ strB "\",\"Npm\":\"" ++ g.Student.Npm
    ++ strB "\"\x7d,\"Greeter\":\"" ++ g.Greeter ++ strB "\"\x7d"

/-- Modelled from the spec: `json.Marshal` of this payload of plain strings
never fails. -/
def jsonMarshalGreet (g : GreetResponse) : Option (List Nat) := some (jsonGreet g)

/-- Modelled from the spec: `encoding/xml.Marshal` output for the Greeting
payload. -/
def xmlGreet (g : GreetResponse) : List Nat :=
  strB "<GreetResponse><Student><Nama>" ++ g.Student.Nama
    ++ strB "</Nama><Npm>" ++ g.Student.Npm
    ++ strB "</Npm></Student><Greeter>" ++ g.Greeter
    ++ strB "</Greeter></GreetResponse>"

/-- Modelled from the spec: `xml.Marshal` of this payload never fails. -/
def xmlMarshalGreet (g : GreetResponse) : Option (List Nat) := some (xmlGreet g)

/-- `handle404` (`server.go:230-235`); Go zero values give empty strings,
0 and nil data. -/
def handle404 : HttpResponse := ⟨strB "HTTP/1.1", strB "404", [], [], 0, []⟩

/-- `handleRoot` (`server.go:141-154`). -/
def handleRoot (_req : HttpRequest) : HttpResponse :=
  let html := strB ("<html><body><h1>Halo, dunia! Aku " ++ STUDENT_NAME
    ++ " sedang mengerjakan A03</h1></body></html>")
  ⟨strB "HTTP/1.1", strB "200", strB "text/html", strB "none", (html.length : Int), html⟩

/-- The greeting payload built by `handleGreet` (`server.go:168-183`): the
`name` query parameter overrides the default greeter name when nonempty
(Go's `Values.Get` returns `""` for an absent parameter). -/
def greetPayload (nameQ : List Nat) : GreetResponse :=
  ⟨⟨strB STUDENT_NAME, strB STUDENT_NPM⟩,
    if nameQ = [] then strB STUDENT_NAME else nameQ⟩

/-- Content-type selection and marshalling of `handleGreet`
(`server.go:185-197`): the chosen content type and the marshaller outcome.
In the source the xml branch keeps `contentType` as returned by the
negotiator, which in that branch is exactly "application/xml". -/
def greetMarshal (jm xm : GreetResponse → Option (List Nat))
    (accept nameQ : List Nat) : List Nat × Option (List Nat) :=
  if determineContentType accept = strB "application/xml" then
    (strB "application/xml", xm (greetPayload nameQ))
  else (strB "application/json", jm (greetPayload nameQ))

/-- Encoding selection and compression of `handleGreet`
(`server.go:206-216`): the final body bytes and the final encoding value
(any encoding other than gzip/deflate collapses to "none"). -/
def greetCompress (gz df : List Nat → List Nat)
    (acceptEncoding d0 : List Nat) : List Nat × List Nat :=
  if determineEncoding acceptEncoding = strB "gzip" then (gz d0, strB "gzip")
  else if determineEncoding acceptEncoding = strB "deflate" then (df d0, strB "deflate")
  else (d0, strB "none")

/-- `handleGreet` (`server.go:156-228`), parameterized by the external
marshallers `jm`/`xm` and compressors `gz`/`df`. -/
def handleGreetP (jm xm : GreetResponse → Option (List Nat))
    (gz df : List Nat → List Nat)
    (req : HttpRequest) (path nameQ : List Nat) : HttpResponse :=
  if (split1 47 path).length < 3 then handle404
  else if (split1 47 path).getD 2 [] ≠ strB STUDENT_NPM then handle404
  else
    match greetMarshal jm xm req.Accept nameQ with
    | (_, none) => ⟨strB "HTTP/1.1", strB "500", [], [], 0, []⟩
    | (ct, some d0) =>
      let de := greetCompress gz df req.AcceptEncoding d0
      ⟨strB "HTTP/1.1", strB "200", ct, de.2, (de.1.length : Int), de.1⟩

/-- `HandleRequest` (`server.go:117-139`) over the outcome of the external
`url.Parse` of `req.Uri`. -/
def HandleRequestP (jm xm : GreetResponse → Option (List Nat))
    (gz df : List Nat → List Nat)
    (req : HttpRequest) (parsed : Option UrlParts) : HttpResponse :=
  match parsed with
  | none => ⟨strB "HTTP/1.1", strB "400", [], [], 0, []⟩
  | some u =>
    if u.path = strB "/" then handleRoot req
    else if (strB "/greet/").isPrefixOf u.path then
      handleGreetP jm xm gz df req u.path u.nameQ
    else handle404

/-! ## Framer — the client read loop (`client.go:131-187`) -/

/-- First Content-Length line among the header lines (`client.go:160-171`):
case-insensitive prefix match, `strconv.Atoi` of the value after the first
":" with surrounding whitespace trimmed; parse failure or absence gives 0;
the scan breaks at the first matching line either way. -/
def findCL : List (List Nat) → Int
  | [] => 0
  | l :: ls =>
    if (strB "content-length:").isPrefixOf (toLowerB l) then
      match splitFirst1 58 l with
      | some nv => (atoiZ (trimSpace nv.2)).getD 0
      | none => 0
    else findCL ls

/-- The loop-exit test of `Fetch` (`client.go:155-179`): the terminator
CRLFCRLF has arrived and the declared Content-Length is 0 (absent and
unparseable count as 0) or the body bytes received after the terminator
reach it. -/
def frameDone (acc : List Nat) : Bool :=
  match idxOfSeq (strB "\r\n\r\n") acc with
  | none => false
  | some idx =>
    let cl := findCL (splitSep2 13 10 (acc.take idx))
    decide (cl = 0 ∨ cl ≤ (acc.length : Int) - ((idx : Int) + 4))

/-- The read-accumulate loop of `Fetch` (`client.go:140-184`) over the list
of chunks that successive `Read` calls deliver; an exhausted list models
`Read` returning an error with nothing read (the loop breaks). -/
def fetchLoop (acc : List Nat) : List (List Nat) → List Nat
  | [] => acc
  | c :: cs =>
    let acc2 := acc ++ c
    if frameDone acc2 then acc2
    else if c.length < BUFFER_SIZE then acc2
    else fetchLoop acc2 cs

example : strB "ab" = [97, 98] := by decide
example : splitSep2 13 10 (strB "a\r\nb") = [[97], [98]] := by decide
example : split1 32 (strB "GET / HTTP/1.1") = [strB "GET", strB "/", strB "HTTP/1.1"] := by
  decide
example : splitFirst2 58 32 (strB "Host: x:1") = some (strB "Host", strB "x:1") := by decide
example : atoiZ (strB "42") = some 42 := by decide
example : atoiZ (strB "-7") = some (-7) := by decide
example : atoiZ (strB "4x") = none := by decide
example : natToDec 120 = strB "120" := by decide
example : idxOfSeq (strB "\r\n\r\n") (strB "x\r\n\r\ny") = some 1 := by decide
example : trimSpace (strB " 12 ") = strB "12" := by decide
example : determineContentType (strB "application/XML") = strB "application/xml" := by decide
example : determineContentType (strB "application/json, application/xml")
    = strB "application/json" := by decide
example : determineEncoding (strB "gzip;q=0.5, deflate") = strB "gzip" := by decide
example : determineEncoding (strB "br") = strB "gzip" := by decide
example : determineEncoding (strB "NONE") = strB "none" := by decide
example :
    RequestDecoder (RequestEncoder
      ⟨strB "GET", strB "/", strB "HTTP/1.1", strB "h:1", strB "*/*", strB "none"⟩)
    = ⟨strB "GET", strB "/", strB "HTTP/1.1", strB "h:1", strB "*/*", strB "none"⟩ := by
  decide
example :
    ResponseDecoder (ResponseEncoder
      ⟨strB "HTTP/1.1", strB "200", strB "application/json", strB "gzip", 4, [13, 10, 13, 10]⟩)
    = ⟨strB "HTTP/1.1", strB "200", strB "application/json", strB "gzip", 4,
        [13, 10, 13, 10]⟩ := by
  decide
example :
    ResponseDecoder (ResponseEncoder ⟨strB "HTTP/1.1", strB "200", [], strB "none", 0, []⟩)
    ≠ ⟨strB "HTTP/1.1", strB "200", [], strB "none", 0, []⟩ := by decide
example : fetchLoop [] [strB "x\r\n\r\n"] = strB "x\r\n\r\n" := by decide
example : fetchLoop [] [[], strB "x\r\n\r\n"] = [] := by decide

/-! ## Lemmas about the byte-string utilities -/

theorem consHead_cons (c : Nat) (r : List Nat) (rs : List (List Nat)) :
    consHead c (r :: rs) = (c :: r) :: rs := rfl

theorem splitSep2_cons2 (a b c1 c2 : Nat) (rest : List Nat) :
    splitSep2 a b (c1 :: c2 :: rest) =
      if c1 = a ∧ c2 = b then [] :: splitSep2 a b rest
      else consHead c1 (splitSep2 a b (c2 :: rest)) := rfl

theorem split1_cons (sep c : Nat) (rest : List Nat) :
    split1 sep (c :: rest) =
      if c = sep then [] :: split1 sep rest else consHead c (split1 sep rest) := rfl

theorem splitFirst2_cons2 (a b c1 c2 : Nat) (rest : List Nat) :
    splitFirst2 a b (c1 :: c2 :: rest) =
      if c1 = a ∧ c2 = b then some ([], rest)
      else (splitFirst2 a b (c2 :: rest)).map (fun p => (c1 :: p.1, p.2)) := rfl

theorem splitSep2_ne_nil (a b : Nat) : ∀ s : List Nat, splitSep2 a b s ≠ []
  | [] => by simp [splitSep2]
  | [c] => by simp [splitSep2]
  | c1 :: c2 :: rest => by
    simp only [splitSep2]
    split
    · simp
    · cases h : splitSep2 a b (c2 :: rest) with
      | nil => simp [consHead]
      | cons r rs => simp [consHead]

theorem split1_ne_nil (sep : Nat) : ∀ s : List Nat, split1 sep s ≠ []
  | [] => by simp [split1]
  | c :: rest => by
    simp only [split1]
    split
    · simp
    · cases h : split1 sep rest with
      | nil => simp [consHead]
      | cons r rs => simp [consHead]

theorem joinSep2_consHead (a b c : Nat) (l : List (List Nat)) (h : l ≠ []) :
    joinSep2 a b (consHead c l) = c :: joinSep2 a b l := by
  match l with
  | [] => exact absurd rfl h
  | [r] => rfl
  | r :: r2 :: rs => simp [consHead, joinSep2]

theorem joinSep2_splitSep2 (a b : Nat) : ∀ s : List Nat,
    joinSep2 a b (splitSep2 a b s) = s
  | [] => by simp [splitSep2, joinSep2]
  | [c] => by simp [splitSep2, joinSep2]
  | c1 :: c2 :: rest => by
    have ih1 := joinSep2_splitSep2 a b rest
    have ih2 := joinSep2_splitSep2 a b (c2 :: rest)
    rw [splitSep2_cons2]
    split
    · next h =>
      cases hsp : splitSep2 a b rest with
      | nil => exact absurd hsp (splitSep2_ne_nil a b rest)
      | cons r rs =>
        rw [hsp] at ih1
        simp [joinSep2, ih1, h.1, h.2]
    · rw [joinSep2_consHead a b c1 _ (splitSep2_ne_nil a b (c2 :: rest)), ih2]

theorem splitSep2_sep_cons (a b : Nat) (y : List Nat) :
    splitSep2 a b (a :: b :: y) = [] :: splitSep2 a b y := by
  rw [splitSep2_cons2, if_pos ⟨rfl, rfl⟩]

theorem splitSep2_append (a b : Nat) : ∀ (x y : List Nat), a ∉ x →
    splitSep2 a b (x ++ a :: b :: y) = x :: splitSep2 a b y
  | [], y, _ => by simp [splitSep2_sep_cons]
  | [c], y, h => by
    rw [List.mem_singleton] at h
    show splitSep2 a b (c :: a :: b :: y) = [c] :: splitSep2 a b y
    rw [splitSep2_cons2, if_neg (fun hh => h hh.1.symm), splitSep2_sep_cons, consHead_cons]
  | c1 :: c2 :: x', y, h => by
    rw [List.mem_cons, not_or] at h
    have ih := splitSep2_append a b (c2 :: x') y h.2
    show splitSep2 a b (c1 :: c2 :: (x' ++ a :: b :: y)) = (c1 :: c2 :: x') :: splitSep2 a b y
    rw [splitSep2_cons2, if_neg (fun hh => h.1 hh.1.symm)]
    rw [show c2 :: (x' ++ a :: b :: y) = (c2 :: x') ++ a :: b :: y from rfl, ih, consHead_cons]

theorem splitSep2_no_sep (a b : Nat) : ∀ x : List Nat, a ∉ x → splitSep2 a b x = [x]
  | [], _ => rfl
  | [_], _ => rfl
  | c1 :: c2 :: x', h => by
    rw [List.mem_cons, not_or] at h
    have ih := splitSep2_no_sep a b (c2 :: x') h.2
    rw [splitSep2_cons2, if_neg (fun hh => h.1 hh.1.symm), ih, consHead_cons]

theorem split1_sep_cons (sep : Nat) (y : List Nat) :
    split1 sep (sep :: y) = [] :: split1 sep y := by
  rw [split1_cons, if_pos rfl]

theorem split1_append (sep : Nat) : ∀ (x y : List Nat), sep ∉ x →
    split1 sep (x ++ sep :: y) = x :: split1 sep y
  | [], y, _ => by simp [split1_sep_cons]
  | c :: x', y, h => by
    rw [List.mem_cons, not_or] at h
    have ih := split1_append sep x' y h.2
    show split1 sep (c :: (x' ++ sep :: y)) = (c :: x') :: split1 sep y
    rw [split1_cons, if_neg (fun hh => h.1 hh.symm), ih, consHead_cons]

theorem split1_no_sep (sep : Nat) : ∀ x : List Nat, sep ∉ x → split1 sep x = [x]
  | [], _ => rfl
  | c :: x', h => by
    rw [List.mem_cons, not_or] at h
    rw [split1_cons, if_neg (fun hh => h.1 hh.symm), split1_no_sep sep x' h.2, consHead_cons]

theorem splitFirst2_boundary (a b : Nat) : ∀ (x y : List Nat), a ∉ x →
    splitFirst2 a b (x ++ a :: b :: y) = some (x, y)
  | [], y, _ => by simp [splitFirst2]
  | [c], y, h => by
    rw [List.mem_singleton] at h
    show splitFirst2 a b (c :: a :: b :: y) = some ([c], y)
    rw [splitFirst2_cons2, if_neg (fun hh => h hh.1.symm), splitFirst2_cons2,
      if_pos ⟨rfl, rfl⟩]
    rfl
  | c1 :: c2 :: x', y, h => by
    rw [List.mem_cons, not_or] at h
    have ih := splitFirst2_boundary a b (c2 :: x') y h.2
    show splitFirst2 a b (c1 :: c2 :: (x' ++ a :: b :: y)) = some (c1 :: c2 :: x', y)
    rw [splitFirst2_cons2, if_neg (fun hh => h.1 hh.1.symm)]
    rw [show c2 :: (x' ++ a :: b :: y) = (c2 :: x') ++ a :: b :: y from rfl, ih]
    rfl

/-! ## Round trip of decimal rendering and `Atoi` -/

theorem natToDecAux_zero (fuel : Nat) : natToDecAux fuel 0 = [] := by
  cases fuel <;> simp [natToDecAux]

theorem natToDecAux_digits : ∀ fuel n d, d ∈ natToDecAux fuel n → 48 ≤ d ∧ d ≤ 57
  | 0, n, d, h => by simp [natToDecAux] at h
  | fuel + 1, n, d, h => by
    by_cases hn : n = 0
    · rw [hn, natToDecAux_zero] at h
      simp at h
    · simp only [natToDecAux, if_neg hn] at h
      rcases List.mem_cons.mp h with h1 | h2
      · have hlt : n % 10 < 10 := Nat.mod_lt _ (by omega)
        omega
      · exact natToDecAux_digits fuel (n / 10) d h2

theorem natToDecAux_foldr : ∀ fuel n, n ≤ fuel →
    (natToDecAux fuel n).foldr (fun d acc => 10 * acc + (d - 48)) 0 = n
  | fuel, 0, _ => by rw [natToDecAux_zero]; rfl
  | 0, n + 1, h => absurd h (by omega)
  | fuel + 1, n + 1, h => by
    simp only [natToDecAux, if_neg (Nat.succ_ne_zero n), List.foldr_cons]
    have hdiv : (n + 1) / 10 ≤ fuel := by
      have : (n + 1) / 10 < n + 1 := Nat.div_lt_self (by omega) (by omega)
      omega
    rw [natToDecAux_foldr fuel ((n + 1) / 10) hdiv]
    omega

theorem natToDecAux_ne_nil (fuel n : Nat) (hn : n ≠ 0) (hf : n ≤ fuel) :
    natToDecAux fuel n ≠ [] := by
  match fuel with
  | 0 => omega
  | f + 1 => simp [natToDecAux, hn]

theorem digitsVal_natToDecAux (fuel n : Nat) (h : n ≤ fuel) :
    digitsVal (natToDecAux fuel n).reverse = n := by
  unfold digitsVal
  rw [List.foldl_reverse]
  exact natToDecAux_foldr fuel n h

theorem allDigits_natToDecAux_reverse (fuel n : Nat) :
    allDigits (natToDecAux fuel n).reverse = true := by
  rw [allDigits, List.all_eq_true]
  intro d hd
  have := natToDecAux_digits fuel n d (List.mem_reverse.mp hd)
  simpa using this

theorem atoiZ_natToDec (n : Nat) : atoiZ (natToDec n) = some (n : Int) := by
  by_cases hn : n = 0
  · rw [hn]; decide
  · rw [natToDec, if_neg hn]
    have haux := natToDecAux_ne_nil n n hn le_rfl
    cases hl : (natToDecAux n n).reverse with
    | nil => exact absurd (List.reverse_eq_nil_iff.mp hl) haux
    | cons c cs =>
      have hcmem : c ∈ natToDecAux n n := by
        rw [← List.mem_reverse, hl]
        exact List.mem_cons_self c cs
      have hdig := natToDecAux_digits n n c hcmem
      rw [← hl]
      unfold atoiZ
      rw [if_neg (by rw [hl]; simp)]
      rw [if_neg (by rw [hl]; show ¬ c = 45; omega)]
      rw [if_neg (by rw [hl]; show ¬ c = 43; omega)]
      rw [if_pos (allDigits_natToDecAux_reverse n n)]
      rw [digitsVal_natToDecAux n n le_rfl]

theorem intToDec_coe (n : Nat) : intToDec (n : Int) = natToDec n := by
  unfold intToDec
  rw [if_neg (by omega)]
  norm_num

/-! ## Splitting an encoded header block into lines -/

/-- Each line followed by one CRLF, concatenated: the header section of both
encoders. -/
def linesJoin (ls : List (List Nat)) : List Nat :=
  ls.foldr (fun l acc => l ++ 13 :: 10 :: acc) []

theorem linesJoin_cons (l : List Nat) (ls : List (List Nat)) :
    linesJoin (l :: ls) = l ++ 13 :: 10 :: linesJoin ls := rfl

theorem splitSep2_linesJoin : ∀ (ls : List (List Nat)) (d : List Nat),
    (∀ l ∈ ls, (13 : Nat) ∉ l) →
    splitSep2 13 10 (linesJoin ls ++ 13 :: 10 :: d) = ls ++ [] :: splitSep2 13 10 d
  | [], d, _ => by simp [linesJoin, splitSep2_sep_cons]
  | l :: ls', d, h => by
    have h1 : (13 : Nat) ∉ l := h l (List.mem_cons_self l ls')
    have ih := splitSep2_linesJoin ls' d (fun x hx => h x (List.mem_cons_of_mem l hx))
    rw [linesJoin_cons, List.append_assoc, List.cons_append, List.cons_append]
    rw [splitSep2_append 13 10 l _ h1, ih]
    simp

/-! ## Header-loop lemmas -/

theorem reqScan_append : ∀ (hs : List (List Nat)) (r : HttpRequest)
    (rest : List (List Nat)), (∀ l ∈ hs, l ≠ []) →
    reqScan r (hs ++ [] :: rest) = List.foldl applyReqHeader r hs
  | [], r, rest, _ => by simp [reqScan]
  | l :: hs', r, rest, h => by
    have h1 : l ≠ [] := h l (List.mem_cons_self l hs')
    have ih := reqScan_append hs' (applyReqHeader r l) rest
      (fun x hx => h x (List.mem_cons_of_mem l hx))
    show reqScan r (l :: (hs' ++ [] :: rest)) = _
    simp only [reqScan]
    rw [if_neg h1, ih, List.foldl_cons]

theorem respScan_append : ∀ (hs : List (List Nat)) (r : HttpResponse)
    (rest : List (List Nat)) (i : Nat), 1 ≤ i → (∀ l ∈ hs, l ≠ []) →
    respScan r (hs ++ [] :: rest) i = (List.foldl applyRespHeader r hs, i + hs.length)
  | [], r, rest, i, _, _ => by simp [respScan]
  | l :: hs', r, rest, i, hi, h => by
    have h1 : l ≠ [] := h l (List.mem_cons_self l hs')
    have ih := respScan_append hs' (applyRespHeader r l) rest (i + 1) (by omega)
      (fun x hx => h x (List.mem_cons_of_mem l hx))
    show respScan r (l :: (hs' ++ [] :: rest)) i = _
    simp only [respScan]
    rw [if_neg h1, if_neg (by omega : ¬ i = 0), ih, List.foldl_cons]
    simp only [Prod.mk.injEq, List.length_cons]
    constructor <;> first | trivial | omega

theorem respScan_cons0 (r : HttpResponse) (l0 : List Nat) (ls : List (List Nat))
    (h : l0 ≠ []) : respScan r (l0 :: ls) 0 = respScan r ls 1 := by
  simp only [respScan]
  rw [if_neg h]
  simp

/-! ## Recognizing one encoded header line -/

theorem applyRespHeader_eq (r : HttpResponse) (name v : List Nat) (h58 : 58 ∉ name) :
    applyRespHeader r (name ++ 58 :: 32 :: v) =
      (if toLowerB name = strB "content-type" then { r with ContentType := v }
       else if toLowerB name = strB "content-encoding" then { r with ContentEncoding := v }
       else if toLowerB name = strB "content-length" then
         (match atoiZ v with
          | some z => { r with ContentLength := z }
          | none => r)
       else r) := by
  unfold applyRespHeader
  rw [splitFirst2_boundary 58 32 name v h58]

theorem applyRespHeader_CT (r : HttpResponse) (v : List Nat) :
    applyRespHeader r (strB "Content-Type: " ++ v) = { r with ContentType := v } := by
  rw [show strB "Content-Type: " ++ v = strB "Content-Type" ++ 58 :: 32 :: v from rfl,
    applyRespHeader_eq r _ v (by decide), if_pos (by decide)]

theorem applyRespHeader_CE (r : HttpResponse) (v : List Nat) :
    applyRespHeader r (strB "Content-Encoding: " ++ v) = { r with ContentEncoding := v } := by
  rw [show strB "Content-Encoding: " ++ v = strB "Content-Encoding" ++ 58 :: 32 :: v from rfl,
    applyRespHeader_eq r _ v (by decide), if_neg (by decide), if_pos (by decide)]

theorem applyRespHeader_CL (r : HttpResponse) (v : List Nat) (z : Int)
    (hz : atoiZ v = some z) :
    applyRespHeader r (strB "Content-Length: " ++ v) = { r with ContentLength := z } := by
  rw [show strB "Content-Length: " ++ v = strB "Content-Length" ++ 58 :: 32 :: v from rfl,
    applyRespHeader_eq r _ v (by decide), if_neg (by decide), if_neg (by decide),
    if_pos (by decide), hz]

theorem applyReqHeader_eq (r : HttpRequest) (name v : List Nat) (h58 : 58 ∉ name) :
    applyReqHeader r (name ++ 58 :: 32 :: v) =
      (if toLowerB name = strB "host" then { r with Host := v }
       else if toLowerB name = strB "accept" then { r with Accept := v }
       else if toLowerB name = strB "accept-encoding" then { r with AcceptEncoding := v }
       else r) := by
  unfold applyReqHeader
  rw [splitFirst2_boundary 58 32 name v h58]

theorem applyReqHeader_Host (r : HttpRequest) (v : List Nat) :
    applyReqHeader r (strB "Host: " ++ v) = { r with Host := v } := by
  rw [show strB "Host: " ++ v = strB "Host" ++ 58 :: 32 :: v from rfl,
    applyReqHeader_eq r _ v (by decide), if_pos (by decide)]

theorem applyReqHeader_Accept (r : HttpRequest) (v : List Nat) :
    applyReqHeader r (strB "Accept: " ++ v) = { r with Accept := v } := by
  rw [show strB "Accept: " ++ v = strB "Accept" ++ 58 :: 32 :: v from rfl,
    applyReqHeader_eq r _ v (by decide), if_neg (by decide), if_pos (by decide)]

theorem applyReqHeader_AE (r : HttpRequest) (v : List Nat) :
    applyReqHeader r (strB "Accept-Encoding: " ++ v) = { r with AcceptEncoding := v } := by
  rw [show strB "Accept-Encoding: " ++ v = strB "Accept-Encoding" ++ 58 :: 32 :: v from rfl,
    applyReqHeader_eq r _ v (by decide), if_neg (by decide), if_neg (by decide),
    if_pos (by decide)]

/-! ## Encoder output as header lines -/

theorem RequestEncoder_eq (r : HttpRequest) :
    RequestEncoder r =
      linesJoin ([r.Method ++ 32 :: r.Uri ++ 32 :: r.Version,
                  strB "Host: " ++ r.Host,
                  strB "Accept: " ++ r.Accept]
        ++ (if r.AcceptEncoding ≠ strB "none" then
              [strB "Accept-Encoding: " ++ r.AcceptEncoding] else []))
      ++ 13 :: 10 :: ([] : List Nat) := by
  by_cases hae : r.AcceptEncoding = strB "none"
  · simp [RequestEncoder, hae, linesJoin]
  · simp [RequestEncoder, hae, linesJoin]

theorem reqDecodeLines_cons (l0 : List Nat) (ls : List (List Nat)) :
    reqDecodeLines (l0 :: ls) =
      (let parts := split1 32 l0
       let r1 : HttpRequest :=
         if 3 ≤ parts.length then
           ⟨parts.getD 0 [], parts.getD 1 [], parts.getD 2 [], [], [], []⟩
         else ⟨[], [], [], [], [], []⟩
       let r2 := reqScan r1 ls
       if r2.AcceptEncoding = [] then { r2 with AcceptEncoding := strB "none" } else r2) :=
  rfl

/-! ## Claim C2 — request round trip -/

/-- C2 (amended): for a request whose request-line fields contain no CR and
no space byte, whose header values contain no CR byte, and whose
accept-encoding is nonempty, decoding the encoder's bytes reproduces the
record exactly; the `"none"` accept-encoding is omitted on the wire and
restored by the decoder's default. -/
theorem request_roundtrip (r : HttpRequest)
    (hm13 : (13 : Nat) ∉ r.Method) (hm32 : (32 : Nat) ∉ r.Method)
    (hu13 : (13 : Nat) ∉ r.Uri) (hu32 : (32 : Nat) ∉ r.Uri)
    (hv13 : (13 : Nat) ∉ r.Version) (hv32 : (32 : Nat) ∉ r.Version)
    (hh13 : (13 : Nat) ∉ r.Host) (ha13 : (13 : Nat) ∉ r.Accept)
    (he13 : (13 : Nat) ∉ r.AcceptEncoding) (hene : r.AcceptEncoding ≠ []) :
    RequestDecoder (RequestEncoder r) = r := by
  have hstat13 : (13 : Nat) ∉ r.Method ++ 32 :: r.Uri ++ 32 :: r.Version := by
    intro hmem
    rcases List.mem_append.mp hmem with h | h
    · rcases List.mem_append.mp h with h2 | h2
      · exact hm13 h2
      · rcases List.mem_cons.mp h2 with h3 | h3
        · exact absurd h3 (by decide)
        · exact hu13 h3
    · rcases List.mem_cons.mp h with h2 | h2
      · exact absurd h2 (by decide)
      · exact hv13 h2
  have hhost13 : (13 : Nat) ∉ strB "Host: " ++ r.Host := by
    intro hmem
    rcases List.mem_append.mp hmem with h | h
    · exact absurd h (by decide)
    · exact hh13 h
  have hacc13 : (13 : Nat) ∉ strB "Accept: " ++ r.Accept := by
    intro hmem
    rcases List.mem_append.mp hmem with h | h
    · exact absurd h (by decide)
    · exact ha13 h
  have hae13 : (13 : Nat) ∉ strB "Accept-Encoding: " ++ r.AcceptEncoding := by
    intro hmem
    rcases List.mem_append.mp hmem with h | h
    · exact absurd h (by decide)
    · exact he13 h
  have hhostne : strB "Host: " ++ r.Host ≠ [] := by
    intro hcon
    exact absurd (List.append_eq_nil.mp hcon).1 (by decide)
  have haccne : strB "Accept: " ++ r.Accept ≠ [] := by
    intro hcon
    exact absurd (List.append_eq_nil.mp hcon).1 (by decide)
  have haene : strB "Accept-Encoding: " ++ r.AcceptEncoding ≠ [] := by
    intro hcon
    exact absurd (List.append_eq_nil.mp hcon).1 (by decide)
  have hstat : split1 32 (r.Method ++ 32 :: r.Uri ++ 32 :: r.Version)
      = [r.Method, r.Uri, r.Version] := by
    rw [List.append_assoc, List.cons_append,
      split1_append 32 r.Method _ hm32, split1_append 32 r.Uri _ hu32,
      split1_no_sep 32 r.Version hv32]
  by_cases hae : r.AcceptEncoding = strB "none"
  · have hmemL : ∀ l ∈ [r.Method ++ 32 :: r.Uri ++ 32 :: r.Version,
        strB "Host: " ++ r.Host, strB "Accept: " ++ r.Accept], (13 : Nat) ∉ l :=
      List.forall_mem_cons.mpr ⟨hstat13, List.forall_mem_cons.mpr ⟨hhost13,
        List.forall_mem_cons.mpr ⟨hacc13, by simp⟩⟩⟩
    rw [RequestDecoder, RequestEncoder_eq, if_neg (fun hcon => hcon hae),
      List.append_nil, splitSep2_linesJoin _ [] hmemL]
    show reqDecodeLines
      ((r.Method ++ 32 :: r.Uri ++ 32 :: r.Version) ::
        ([strB "Host: " ++ r.Host, strB "Accept: " ++ r.Accept] ++ [] :: [[]])) = r
    rw [reqDecodeLines_cons]
    simp only [hstat]
    rw [reqScan_append [strB "Host: " ++ r.Host, strB "Accept: " ++ r.Accept] _ [[]]
      (List.forall_mem_cons.mpr ⟨hhostne, List.forall_mem_cons.mpr ⟨haccne, by simp⟩⟩)]
    simp only [List.foldl_cons, List.foldl_nil, applyReqHeader_Host, applyReqHeader_Accept]
    simp [hae]
    rw [← hae]
  · have hmemL : ∀ l ∈ [r.Method ++ 32 :: r.Uri ++ 32 :: r.Version,
        strB "Host: " ++ r.Host, strB "Accept: " ++ r.Accept,
        strB "Accept-Encoding: " ++ r.AcceptEncoding], (13 : Nat) ∉ l :=
      List.forall_mem_cons.mpr ⟨hstat13, List.forall_mem_cons.mpr ⟨hhost13,
        List.forall_mem_cons.mpr ⟨hacc13, List.forall_mem_cons.mpr ⟨hae13, by simp⟩⟩⟩⟩
    rw [RequestDecoder, RequestEncoder_eq, if_pos hae,
      show ([r.Method ++ 32 :: r.Uri ++ 32 :: r.Version,
             strB "Host: " ++ r.Host, strB "Accept: " ++ r.Accept]
          ++ [strB "Accept-Encoding: " ++ r.AcceptEncoding])
        = [r.Method ++ 32 :: r.Uri ++ 32 :: r.Version,
           strB "Host: " ++ r.Host, strB "Accept: " ++ r.Accept,
           strB "Accept-Encoding: " ++ r.AcceptEncoding] from rfl,
      splitSep2_linesJoin _ [] hmemL]
    show reqDecodeLines
      ((r.Method ++ 32 :: r.Uri ++ 32 :: r.Version) ::
        ([strB "Host: " ++ r.Host, strB "Accept: " ++ r.Accept,
          strB "Accept-Encoding: " ++ r.AcceptEncoding] ++ [] :: [[]])) = r
    rw [reqDecodeLines_cons]
    simp only [hstat]
    rw [reqScan_append [strB "Host: " ++ r.Host, strB "Accept: " ++ r.Accept,
        strB "Accept-Encoding: " ++ r.AcceptEncoding] _ [[]]
      (List.forall_mem_cons.mpr ⟨hhostne, List.forall_mem_cons.mpr ⟨haccne,
        List.forall_mem_cons.mpr ⟨haene, by simp⟩⟩⟩)]
    simp only [List.foldl_cons, List.foldl_nil, applyReqHeader_Host, applyReqHeader_Accept,
      applyReqHeader_AE]
    simp [hene]

/-- C2 counterexample: a request record whose accept-encoding is the empty
string does not survive the round trip — the decoder restores "none". -/
theorem request_roundtrip_fails :
    RequestDecoder (RequestEncoder
        ⟨strB "GET", strB "/", strB "HTTP/1.1", strB "h:1", strB "*/*", []⟩)
      ≠ ⟨strB "GET", strB "/", strB "HTTP/1.1", strB "h:1", strB "*/*", []⟩ := by
  decide

/-- C2 witness: the amended round trip at a concrete request whose
accept-encoding is the literal "none" (header omitted, value restored). -/
theorem request_roundtrip_witness :
    RequestDecoder (RequestEncoder
        ⟨strB "GET", strB "/greet/2306216636?name=Ada", strB "HTTP/1.1",
          strB "127.0.0.1:6636", strB "application/json", strB "none"⟩)
      = ⟨strB "GET", strB "/greet/2306216636?name=Ada", strB "HTTP/1.1",
          strB "127.0.0.1:6636", strB "application/json", strB "none"⟩ :=
  request_roundtrip _ (by decide) (by decide) (by decide) (by decide) (by decide)
    (by decide) (by decide) (by decide) (by decide) (by decide)

/-! ## Claim C3 — content-type negotiation -/

/-- C3: the negotiator returns JSON whenever the lowercased Accept string
contains a comma or "q="; otherwise XML whenever it contains
"application/xml"; and JSON in every remaining case. -/
theorem determineContentType_correct (a : List Nat) :
    ((goContains (toLowerB a) (strB ",") || goContains (toLowerB a) (strB "q=")) = true →
      determineContentType a = strB "application/json")
    ∧ ((goContains (toLowerB a) (strB ",") || goContains (toLowerB a) (strB "q=")) = false →
        (goContains (toLowerB a) (strB "application/xml") = true →
          determineContentType a = strB "application/xml")
        ∧ (goContains (toLowerB a) (strB "application/xml") = false →
            determineContentType a = strB "application/json")) := by
  unfold determineContentType
  refine ⟨fun h => ?_, fun h => ⟨fun h2 => ?_, fun h2 => ?_⟩⟩
  · rw [if_pos h]
  · rw [if_neg (by simp [h]), if_pos h2]
  · rw [if_neg (by simp [h]), if_neg (by simp [h2])]
    split <;> rfl

/-- C3 witness: the three conditional clauses at concrete Accept values. -/
theorem determineContentType_correct_witness :
    determineContentType (strB "application/json, application/xml")
        = strB "application/json"
      ∧ determineContentType (strB "application/xml") = strB "application/xml"
      ∧ determineContentType (strB "text/plain") = strB "application/json" :=
  ⟨(determineContentType_correct (strB "application/json, application/xml")).1 (by decide),
   ((determineContentType_correct (strB "application/xml")).2 (by decide)).1 (by decide),
   ((determineContentType_correct (strB "text/plain")).2 (by decide)).2 (by decide)⟩

/-! ## Claim C4 — content-encoding negotiation -/

/-- C4: the negotiator returns gzip whenever the lowercased Accept-Encoding
contains a comma or "q="; otherwise deflate when it contains "deflate";
otherwise gzip when it contains "gzip"; it returns "none" exactly when the
lowercased string equals "none"; and gzip for every other string. -/
theorem determineEncoding_correct (ae : List Nat) :
    (determineEncoding ae = strB "none" ↔ toLowerB ae = strB "none")
    ∧ ((goContains (toLowerB ae) (strB ",") || goContains (toLowerB ae) (strB "q=")) = true →
        determineEncoding ae = strB "gzip")
    ∧ ((goContains (toLowerB ae) (strB ",") || goContains (toLowerB ae) (strB "q=")) = false →
        (goContains (toLowerB ae) (strB "deflate") = true →
          determineEncoding ae = strB "deflate")
        ∧ (goContains (toLowerB ae) (strB "deflate") = false →
            (goContains (toLowerB ae) (strB "gzip") = true →
              determineEncoding ae = strB "gzip")
            ∧ (goContains (toLowerB ae) (strB "gzip") = false →
                toLowerB ae ≠ strB "none" → determineEncoding ae = strB "gzip"))) := by
  unfold determineEncoding
  refine ⟨⟨fun hres => ?_, fun hn => ?_⟩, fun h1 => ?_,
    fun h1 => ⟨fun h2 => ?_, fun h2 => ⟨fun h3 => ?_, fun h3 h4 => ?_⟩⟩⟩
  · split_ifs at hres with a1 a2 a3 a4
    · exact absurd hres (by decide)
    · exact absurd hres (by decide)
    · exact absurd hres (by decide)
    · exact a4
    · exact absurd hres (by decide)
  · rw [hn]
    decide
  · rw [if_pos h1]
  · rw [if_neg (by simp [h1]), if_pos h2]
  · rw [if_neg (by simp [h1]), if_neg (by simp [h2]), if_pos h3]
  · rw [if_neg (by simp [h1]), if_neg (by simp [h2]), if_neg (by simp [h3]), if_neg h4]

/-- C4 witness: the encoding clauses at concrete Accept-Encoding values,
including the asymmetric gzip fallback for an unknown encoding. -/
theorem determineEncoding_correct_witness :
    determineEncoding (strB "gzip;q=0.5, deflate") = strB "gzip"
      ∧ determineEncoding (strB "deflate") = strB "deflate"
      ∧ determineEncoding (strB "none") = strB "none"
      ∧ determineEncoding (strB "br") = strB "gzip" :=
  ⟨(determineEncoding_correct (strB "gzip;q=0.5, deflate")).2.1 (by decide),
   ((determineEncoding_correct (strB "deflate")).2.2 (by decide)).1 (by decide),
   (determineEncoding_correct (strB "none")).1.mpr (by decide),
   (((determineEncoding_correct (strB "br")).2.2 (by decide)).2 (by decide)).2
     (by decide) (by decide)⟩

/-! ## Claim C8 — lenient request decode -/

theorem applyReqHeader_keeps (r : HttpRequest) (line : List Nat) :
    (applyReqHeader r line).Method = r.Method ∧ (applyReqHeader r line).Uri = r.Uri
      ∧ (applyReqHeader r line).Version = r.Version := by
  unfold applyReqHeader
  cases splitFirst2 58 32 line with
  | none => exact ⟨rfl, rfl, rfl⟩
  | some nv =>
    simp only []
    split_ifs <;> exact ⟨rfl, rfl, rfl⟩

theorem reqScan_keeps : ∀ (ls : List (List Nat)) (r : HttpRequest),
    (reqScan r ls).Method = r.Method ∧ (reqScan r ls).Uri = r.Uri
      ∧ (reqScan r ls).Version = r.Version
  | [], _ => ⟨rfl, rfl, rfl⟩
  | l :: ls', r => by
    simp only [reqScan]
    split
    · exact ⟨rfl, rfl, rfl⟩
    · have ih := reqScan_keeps ls' (applyReqHeader r l)
      have hk := applyReqHeader_keeps r l
      exact ⟨ih.1.trans hk.1, ih.2.1.trans hk.2.1, ih.2.2.trans hk.2.2⟩

/-- C8: the request decoder is total by construction (it is a Lean function
on arbitrary byte lists), and whenever the first CRLF-separated line splits
on single spaces into fewer than 3 tokens, the decoded method, target and
version are all empty. -/
theorem requestDecoder_lenient (bs : List Nat)
    (h : (split1 32 ((splitSep2 13 10 bs).headI)).length < 3) :
    (RequestDecoder bs).Method = [] ∧ (RequestDecoder bs).Uri = []
      ∧ (RequestDecoder bs).Version = [] := by
  rw [RequestDecoder]
  obtain ⟨l0, ls, hsp⟩ : ∃ l0 ls, splitSep2 13 10 bs = l0 :: ls := by
    cases hsp : splitSep2 13 10 bs with
    | nil => exact absurd hsp (splitSep2_ne_nil 13 10 bs)
    | cons x xs => exact ⟨x, xs, rfl⟩
  rw [hsp] at h ⊢
  simp only [List.headI] at h
  rw [reqDecodeLines_cons]
  simp only [if_neg (by omega : ¬ 3 ≤ (split1 32 l0).length)]
  have hk := reqScan_keeps ls ⟨[], [], [], [], [], []⟩
  split
  · exact ⟨hk.1, hk.2.1, hk.2.2⟩
  · exact ⟨hk.1, hk.2.1, hk.2.2⟩

/-- C8 witness: a two-token request line decodes to empty method, target
and version. -/
theorem requestDecoder_lenient_witness :
    (RequestDecoder (strB "GET /x")).Method = []
      ∧ (RequestDecoder (strB "GET /x")).Uri = []
      ∧ (RequestDecoder (strB "GET /x")).Version = [] :=
  requestDecoder_lenient (strB "GET /x") (by decide)

/-! ## Claims C5, C6, C7, C10 — router and handlers -/

theorem isPrefixOf_append : ∀ (p x : List Nat), p.isPrefixOf (p ++ x) = true
  | [], _ => by simp [List.isPrefixOf]
  | a :: p', x => by simp [List.isPrefixOf, isPrefixOf_append p' x]

theorem greet_path_ne_root (x : List Nat) : strB "/greet/" ++ x ≠ strB "/" := by
  intro hcon
  have hlen := congrArg List.length hcon
  rw [List.length_append, (by decide : (strB "/greet/").length = 7),
    (by decide : (strB "/").length = 1)] at hlen
  omega

theorem greet_path_parts (idb : List Nat) (h47 : (47 : Nat) ∉ idb) :
    split1 47 (strB "/greet/" ++ idb) = [[], strB "greet", idb] := by
  rw [show strB "/greet/" ++ idb = 47 :: (strB "greet" ++ 47 :: idb) from rfl,
    split1_sep_cons, split1_append 47 (strB "greet") idb (by decide),
    split1_no_sep 47 idb h47]

theorem getD2_cons (x y z : List Nat) (zs : List (List Nat)) :
    (x :: y :: z :: zs).getD 2 [] = z := rfl

/-- C5: router error outcomes — a URL-parse failure yields status "400" with
empty body; a path `/greet/<id>` with `<id>` (slash-free) different from the
configured identity yields "404" with empty body; any path other than "/"
without the "/greet/" prefix yields "404", version "HTTP/1.1", empty body. -/
theorem handleRequest_errors (jm xm : GreetResponse → Option (List Nat))
    (gz df : List Nat → List Nat) (req : HttpRequest) :
    HandleRequestP jm xm gz df req none
        = ⟨strB "HTTP/1.1", strB "400", [], [], 0, []⟩
    ∧ (∀ (u : UrlParts) (idb : List Nat), u.path = strB "/greet/" ++ idb →
        (47 : Nat) ∉ idb → idb ≠ strB STUDENT_NPM →
        HandleRequestP jm xm gz df req (some u)
          = ⟨strB "HTTP/1.1", strB "404", [], [], 0, []⟩)
    ∧ (∀ u : UrlParts, u.path ≠ strB "/" →
        (strB "/greet/").isPrefixOf u.path = false →
        HandleRequestP jm xm gz df req (some u)
          = ⟨strB "HTTP/1.1", strB "404", [], [], 0, []⟩) := by
  refine ⟨rfl, fun u idb hpath h47 hne => ?_, fun u hroot hpre => ?_⟩
  · show (if u.path = strB "/" then handleRoot req
      else if (strB "/greet/").isPrefixOf u.path then
        handleGreetP jm xm gz df req u.path u.nameQ
      else handle404) = _
    rw [hpath, if_neg (greet_path_ne_root idb),
      if_pos (isPrefixOf_append (strB "/greet/") idb)]
    unfold handleGreetP
    rw [greet_path_parts idb h47, getD2_cons]
    rw [if_neg (by simp), if_pos hne]
    rfl
  · show (if u.path = strB "/" then handleRoot req
      else if (strB "/greet/").isPrefixOf u.path then
        handleGreetP jm xm gz df req u.path u.nameQ
      else handle404) = _
    rw [if_neg hroot, if_neg (by simp [hpre])]
    rfl

/-- C5 witness: a greet path with a wrong identity yields the 404 record. -/
theorem handleRequest_errors_witness :
    HandleRequestP jsonMarshalGreet xmlMarshalGreet id id
        ⟨strB "GET", strB "/greet/999", strB "HTTP/1.1", [], [], []⟩
        (some ⟨strB "/greet/999", []⟩)
      = ⟨strB "HTTP/1.1", strB "404", [], [], 0, []⟩ :=
  (handleRequest_errors jsonMarshalGreet xmlMarshalGreet id id
      ⟨strB "GET", strB "/greet/999", strB "HTTP/1.1", [], [], []⟩).2.1
    ⟨strB "/greet/999", []⟩ (strB "999") (by decide) (by decide) (by decide)

/-- C7: every response the handler produces — on the 400, root, greet
(500 and 200, any content type, any encoding) and 404 branches, for any
marshaller and compressor behavior — carries a content-length equal to the
byte length of its data. -/
theorem contentLength_invariant (jm xm : GreetResponse → Option (List Nat))
    (gz df : List Nat → List Nat) (req : HttpRequest) (parsed : Option UrlParts) :
    (HandleRequestP jm xm gz df req parsed).ContentLength
      = ((HandleRequestP jm xm gz df req parsed).Data.length : Int) := by
  cases parsed with
  | none => rfl
  | some u =>
    show ((if u.path = strB "/" then handleRoot req
        else if (strB "/greet/").isPrefixOf u.path then
          handleGreetP jm xm gz df req u.path u.nameQ
        else handle404)).ContentLength
      = (((if u.path = strB "/" then handleRoot req
        else if (strB "/greet/").isPrefixOf u.path then
          handleGreetP jm xm gz df req u.path u.nameQ
        else handle404)).Data.length : Int)
    split_ifs with h1 h2
    · rfl
    · unfold handleGreetP
      split_ifs with g1 g2
      · rfl
      · rfl
      · rcases hgm : greetMarshal jm xm req.Accept u.nameQ with ⟨ct, md⟩
        cases md with
        | none => rfl
        | some d0 => rfl
    · rfl

/-- C10: a greet path with the valid identity followed by one or more extra
slash-separated segments is still treated as a valid greet request: the
handler returns status "200" (only the second path segment is compared). -/
theorem greet_trailing_segments (gz df : List Nat → List Nat) (req : HttpRequest)
    (rest nameQ : List Nat) :
    (HandleRequestP jsonMarshalGreet xmlMarshalGreet gz df req
        (some ⟨strB "/greet/2306216636/" ++ rest, nameQ⟩)).StatusCode = strB "200" := by
  show ((if (strB "/greet/2306216636/" ++ rest : List Nat) = strB "/" then handleRoot req
      else if (strB "/greet/").isPrefixOf (strB "/greet/2306216636/" ++ rest) then
        handleGreetP jsonMarshalGreet xmlMarshalGreet gz df req
          (strB "/greet/2306216636/" ++ rest) nameQ
      else handle404)).StatusCode = _
  rw [show strB "/greet/2306216636/" ++ rest
      = strB "/greet/" ++ (strB "2306216636/" ++ rest) from rfl,
    if_neg (greet_path_ne_root (strB "2306216636/" ++ rest)),
    if_pos (isPrefixOf_append (strB "/greet/") (strB "2306216636/" ++ rest))]
  unfold handleGreetP
  have hsplit : split1 47 (strB "/greet/" ++ (strB "2306216636/" ++ rest))
      = [] :: strB "greet" :: strB "2306216636" :: split1 47 rest := by
    rw [show strB "/greet/" ++ (strB "2306216636/" ++ rest)
        = 47 :: (strB "greet" ++ 47 :: (strB "2306216636" ++ 47 :: rest)) from rfl,
      split1_sep_cons, split1_append 47 (strB "greet") _ (by decide),
      split1_append 47 (strB "2306216636") _ (by decide)]
  rw [hsplit, getD2_cons, if_neg (by simp), if_neg (fun hcon => hcon rfl)]
  rw [show greetMarshal jsonMarshalGreet xmlMarshalGreet req.Accept nameQ
      = (if determineContentType req.Accept = strB "application/xml" then
           strB "application/xml" else strB "application/json",
         some (if determineContentType req.Accept = strB "application/xml" then
           xmlGreet (greetPayload nameQ) else jsonGreet (greetPayload nameQ)))
      from by
        unfold greetMarshal jsonMarshalGreet xmlMarshalGreet
        split_ifs <;> rfl]

/-! ## Claim C6 — valid greet exchange -/

/-- The greeting payload of the verified exchange: the configured student and
greeter "Ada". -/
def adaPayload : GreetResponse :=
  ⟨⟨strB STUDENT_NAME, strB STUDENT_NPM⟩, strB "Ada"⟩

/-- C6: a GET of "/greet/<validID>?name=Ada" with Accept "application/json"
and Accept-Encoding "none" produces status "200", content-type
"application/json", content-encoding "none" — whose header the wire encoder
omits, as witnessed by the absence of "Content-Encoding" in the encoded
bytes — and a body equal to the JSON serialization of the greeting payload. -/
theorem greet_exchange (gz df : List Nat → List Nat) (host : List Nat) :
    HandleRequestP jsonMarshalGreet xmlMarshalGreet gz df
        ⟨strB "GET", strB "/greet/2306216636?name=Ada", strB "HTTP/1.1", host,
          strB "application/json", strB "none"⟩
        (some ⟨strB "/greet/2306216636", strB "Ada"⟩)
      = ⟨strB "HTTP/1.1", strB "200", strB "application/json", strB "none",
          ((jsonGreet adaPayload).length : Int), jsonGreet adaPayload⟩
    ∧ goContains (ResponseEncoder ⟨strB "HTTP/1.1", strB "200",
          strB "application/json", strB "none",
          ((jsonGreet adaPayload).length : Int), jsonGreet adaPayload⟩)
        (strB "Content-Encoding") = false := by
  constructor
  · rfl
  · decide

/-! ## Claim C1 — response round trip -/

theorem natToDec_no13 (n : Nat) : (13 : Nat) ∉ natToDec n := by
  intro hmem
  unfold natToDec at hmem
  split at hmem
  · simp at hmem
  · have := natToDecAux_digits n n 13 (List.mem_reverse.mp hmem)
    omega

theorem ResponseEncoder_eq (res : HttpResponse) :
    ResponseEncoder res =
      linesJoin ([res.Version ++ 32 :: res.StatusCode ++ strB " OK"]
        ++ (if res.ContentType ≠ [] then [strB "Content-Type: " ++ res.ContentType] else [])
        ++ (if res.ContentEncoding ≠ [] ∧ res.ContentEncoding ≠ strB "none" then
              [strB "Content-Encoding: " ++ res.ContentEncoding] else [])
        ++ [strB "Content-Length: " ++ intToDec res.ContentLength])
      ++ 13 :: 10 :: res.Data := by
  by_cases h1 : res.ContentType = []
  · by_cases h2 : res.ContentEncoding ≠ [] ∧ res.ContentEncoding ≠ strB "none"
    · simp [ResponseEncoder, linesJoin, h1, h2]
    · simp [ResponseEncoder, linesJoin, h1, h2]
  · by_cases h2 : res.ContentEncoding ≠ [] ∧ res.ContentEncoding ≠ strB "none"
    · simp [ResponseEncoder, linesJoin, h1, h2]
    · simp [ResponseEncoder, linesJoin, h1, h2]

theorem respDecodeLines_cons (l0 : List Nat) (ls : List (List Nat)) :
    respDecodeLines (l0 :: ls) =
      (let parts := split1 32 l0
       let r1 : HttpResponse :=
         if 3 ≤ parts.length then ⟨parts.getD 0 [], parts.getD 1 [], [], [], 0, []⟩
         else ⟨[], [], [], [], 0, []⟩
       let sc := respScan r1 (l0 :: ls) 0
       if sc.2 < (l0 :: ls).length - 1 then
         { sc.1 with Data := joinSep2 13 10 ((l0 :: ls).drop (sc.2 + 1)) }
       else sc.1) :=
  rfl

theorem drop_hs : ∀ (hs rest : List (List Nat)),
    (hs ++ [] :: rest).drop (hs.length + 1) = rest
  | [], _ => rfl
  | h :: hs', rest => by
    show ((h :: hs') ++ [] :: rest).drop (hs'.length + 1 + 1) = rest
    rw [List.cons_append, List.drop_succ_cons]
    exact drop_hs hs' rest

theorem drop_headers (x : List Nat) (hs rest : List (List Nat)) :
    (x :: (hs ++ [] :: rest)).drop (1 + hs.length + 1) = rest := by
  rw [show 1 + hs.length + 1 = (hs.length + 1) + 1 from by omega, List.drop_succ_cons]
  exact drop_hs hs rest

theorem cond_headers (x : List Nat) (hs rest : List (List Nat)) (hne : rest ≠ []) :
    1 + hs.length < (x :: (hs ++ [] :: rest)).length - 1 := by
  have hpos := List.length_pos.mpr hne
  simp only [List.length_cons, List.length_append]
  omega

/-- C1 (amended): for a response whose version and status contain no CR and
no space byte, whose content-type and content-encoding contain no CR byte,
whose content-encoding is not the literal "none", and whose content-length
equals the byte length of its data, decoding the encoder's bytes reproduces
the record exactly — including when the data is a binary byte sequence with
embedded CRLF patterns (the decoder's split-and-rejoin on CRLF is the
identity on the body). -/
theorem response_roundtrip (r : HttpResponse)
    (hv13 : (13 : Nat) ∉ r.Version) (hv32 : (32 : Nat) ∉ r.Version)
    (hs13 : (13 : Nat) ∉ r.StatusCode) (hs32 : (32 : Nat) ∉ r.StatusCode)
    (hct13 : (13 : Nat) ∉ r.ContentType)
    (hce13 : (13 : Nat) ∉ r.ContentEncoding)
    (hcen : r.ContentEncoding ≠ strB "none")
    (hcl : r.ContentLength = (r.Data.length : Int)) :
    ResponseDecoder (ResponseEncoder r) = r := by
  have hstat13 : (13 : Nat) ∉ r.Version ++ 32 :: r.StatusCode ++ strB " OK" := by
    intro hmem
    rcases List.mem_append.mp hmem with h | h
    · rcases List.mem_append.mp h with h2 | h2
      · exact hv13 h2
      · rcases List.mem_cons.mp h2 with h3 | h3
        · exact absurd h3 (by decide)
        · exact hs13 h3
    · exact absurd h (by decide)
  have hct13L : (13 : Nat) ∉ strB "Content-Type: " ++ r.ContentType := by
    intro hmem
    rcases List.mem_append.mp hmem with h | h
    · exact absurd h (by decide)
    · exact hct13 h
  have hce13L : (13 : Nat) ∉ strB "Content-Encoding: " ++ r.ContentEncoding := by
    intro hmem
    rcases List.mem_append.mp hmem with h | h
    · exact absurd h (by decide)
    · exact hce13 h
  have hint : intToDec r.ContentLength = natToDec r.Data.length := by
    rw [hcl, intToDec_coe]
  have hcl13L : (13 : Nat) ∉ strB "Content-Length: " ++ intToDec r.ContentLength := by
    intro hmem
    rcases List.mem_append.mp hmem with h | h
    · exact absurd h (by decide)
    · rw [hint] at h
      exact natToDec_no13 r.Data.length h
  have hz : atoiZ (intToDec r.ContentLength) = some r.ContentLength := by
    rw [hint, atoiZ_natToDec, hcl]
  have hstat : split1 32 (r.Version ++ 32 :: r.StatusCode ++ strB " OK")
      = [r.Version, r.StatusCode, strB "OK"] := by
    have hassoc : r.Version ++ 32 :: r.StatusCode ++ strB " OK"
        = r.Version ++ 32 :: (r.StatusCode ++ 32 :: strB "OK") := by
      rw [List.append_assoc, List.cons_append,
        show strB " OK" = 32 :: strB "OK" from by decide]
    rw [hassoc, split1_append 32 r.Version _ hv32, split1_append 32 r.StatusCode _ hs32,
      split1_no_sep 32 (strB "OK") (by decide)]
  have hstatne : r.Version ++ 32 :: r.StatusCode ++ strB " OK" ≠ [] := by
    intro hcon
    exact absurd (List.append_eq_nil.mp hcon).2 (by decide)
  have hctne : strB "Content-Type: " ++ r.ContentType ≠ [] := by
    intro hcon
    exact absurd (List.append_eq_nil.mp hcon).1 (by decide)
  have hcene : strB "Content-Encoding: " ++ r.ContentEncoding ≠ [] := by
    intro hcon
    exact absurd (List.append_eq_nil.mp hcon).1 (by decide)
  have hclne : strB "Content-Length: " ++ intToDec r.ContentLength ≠ [] := by
    intro hcon
    exact absurd (List.append_eq_nil.mp hcon).1 (by decide)
  have hsplitne := splitSep2_ne_nil 13 10 r.Data
  by_cases h1 : r.ContentType = []
  · by_cases h2 : r.ContentEncoding = []
    · have hmemL : ∀ l ∈ [r.Version ++ 32 :: r.StatusCode ++ strB " OK",
          strB "Content-Length: " ++ intToDec r.ContentLength], (13 : Nat) ∉ l :=
        List.forall_mem_cons.mpr ⟨hstat13, List.forall_mem_cons.mpr ⟨hcl13L, by simp⟩⟩
      rw [ResponseDecoder, ResponseEncoder_eq,
        if_neg (fun hcon => hcon h1), if_neg (fun hcon => hcon.1 h2),
        show ([r.Version ++ 32 :: r.StatusCode ++ strB " OK"] ++ [] ++ []
            ++ [strB "Content-Length: " ++ intToDec r.ContentLength] : List (List Nat))
          = [r.Version ++ 32 :: r.StatusCode ++ strB " OK",
             strB "Content-Length: " ++ intToDec r.ContentLength] from rfl,
        splitSep2_linesJoin _ r.Data hmemL]
      show respDecodeLines ((r.Version ++ 32 :: r.StatusCode ++ strB " OK") ::
        ([strB "Content-Length: " ++ intToDec r.ContentLength]
          ++ [] :: splitSep2 13 10 r.Data)) = r
      rw [respDecodeLines_cons]
      simp only [hstat]
      rw [respScan_cons0 _ _ _ hstatne,
        respScan_append [strB "Content-Length: " ++ intToDec r.ContentLength] _
          (splitSep2 13 10 r.Data) 1 le_rfl
          (List.forall_mem_cons.mpr ⟨hclne, by simp⟩),
        List.foldl_cons, List.foldl_nil, applyRespHeader_CL _ _ _ hz]
      rw [if_pos (cond_headers _ _ _ hsplitne), drop_headers, joinSep2_splitSep2]
      show _ = (⟨r.Version, r.StatusCode, r.ContentType, r.ContentEncoding,
        r.ContentLength, r.Data⟩ : HttpResponse)
      rw [h1, h2]
      simp [List.getD_cons_zero, List.getD_cons_succ]
    · have hmemL : ∀ l ∈ [r.Version ++ 32 :: r.StatusCode ++ strB " OK",
          strB "Content-Encoding: " ++ r.ContentEncoding,
          strB "Content-Length: " ++ intToDec r.ContentLength], (13 : Nat) ∉ l :=
        List.forall_mem_cons.mpr ⟨hstat13, List.forall_mem_cons.mpr ⟨hce13L,
          List.forall_mem_cons.mpr ⟨hcl13L, by simp⟩⟩⟩
      rw [ResponseDecoder, ResponseEncoder_eq,
        if_neg (fun hcon => hcon h1), if_pos ⟨h2, hcen⟩,
        show ([r.Version ++ 32 :: r.StatusCode ++ strB " OK"] ++ []
            ++ [strB "Content-Encoding: " ++ r.ContentEncoding]
            ++ [strB "Content-Length: " ++ intToDec r.ContentLength] : List (List Nat))
          = [r.Version ++ 32 :: r.StatusCode ++ strB " OK",
             strB "Content-Encoding: " ++ r.ContentEncoding,
             strB "Content-Length: " ++ intToDec r.ContentLength] from rfl,
        splitSep2_linesJoin _ r.Data hmemL]
      show respDecodeLines ((r.Version ++ 32 :: r.StatusCode ++ strB " OK") ::
        ([strB "Content-Encoding: " ++ r.ContentEncoding,
          strB "Content-Length: " ++ intToDec r.ContentLength]
          ++ [] :: splitSep2 13 10 r.Data)) = r
      rw [respDecodeLines_cons]
      simp only [hstat]
      rw [respScan_cons0 _ _ _ hstatne,
        respScan_append [strB "Content-Encoding: " ++ r.ContentEncoding,
            strB "Content-Length: " ++ intToDec r.ContentLength] _
          (splitSep2 13 10 r.Data) 1 le_rfl
          (List.forall_mem_cons.mpr ⟨hcene, List.forall_mem_cons.mpr ⟨hclne, by simp⟩⟩)]
      simp only [List.foldl_cons, List.foldl_nil]
      rw [applyRespHeader_CE, applyRespHeader_CL _ _ _ hz]
      rw [if_pos (cond_headers _ _ _ hsplitne), drop_headers, joinSep2_splitSep2]
      show _ = (⟨r.Version, r.StatusCode, r.ContentType, r.ContentEncoding,
        r.ContentLength, r.Data⟩ : HttpResponse)
      rw [h1]
      simp [List.getD_cons_zero, List.getD_cons_succ]
  · by_cases h2 : r.ContentEncoding = []
    · have hmemL : ∀ l ∈ [r.Version ++ 32 :: r.StatusCode ++ strB " OK",
          strB "Content-Type: " ++ r.ContentType,
          strB "Content-Length: " ++ intToDec r.ContentLength], (13 : Nat) ∉ l :=
        List.forall_mem_cons.mpr ⟨hstat13, List.forall_mem_cons.mpr ⟨hct13L,
          List.forall_mem_cons.mpr ⟨hcl13L, by simp⟩⟩⟩
      rw [ResponseDecoder, ResponseEncoder_eq,
        if_pos h1, if_neg (fun hcon => hcon.1 h2),
        show ([r.Version ++ 32 :: r.StatusCode ++ strB " OK"]
            ++ [strB "Content-Type: " ++ r.ContentType] ++ []
            ++ [strB "Content-Length: " ++ intToDec r.ContentLength] : List (List Nat))
          = [r.Version ++ 32 :: r.StatusCode ++ strB " OK",
             strB "Content-Type: " ++ r.ContentType,
             strB "Content-Length: " ++ intToDec r.ContentLength] from rfl,
        splitSep2_linesJoin _ r.Data hmemL]
      show respDecodeLines ((r.Version ++ 32 :: r.StatusCode ++ strB " OK") ::
        ([strB "Content-Type: " ++ r.ContentType,
          strB "Content-Length: " ++ intToDec r.ContentLength]
          ++ [] :: splitSep2 13 10 r.Data)) = r
      rw [respDecodeLines_cons]
      simp only [hstat]
      rw [respScan_cons0 _ _ _ hstatne,
        respScan_append [strB "Content-Type: " ++ r.ContentType,
            strB "Content-Length: " ++ intToDec r.ContentLength] _
          (splitSep2 13 10 r.Data) 1 le_rfl
          (List.forall_mem_cons.mpr ⟨hctne, List.forall_mem_cons.mpr ⟨hclne, by simp⟩⟩)]
      simp only [List.foldl_cons, List.foldl_nil]
      rw [applyRespHeader_CT, applyRespHeader_CL _ _ _ hz]
      rw [if_pos (cond_headers _ _ _ hsplitne), drop_headers, joinSep2_splitSep2]
      show _ = (⟨r.Version, r.StatusCode, r.ContentType, r.ContentEncoding,
        r.ContentLength, r.Data⟩ : HttpResponse)
      rw [h2]
      simp [List.getD_cons_zero, List.getD_cons_succ]
    · have hmemL : ∀ l ∈ [r.Version ++ 32 :: r.StatusCode ++ strB " OK",
          strB "Content-Type: " ++ r.ContentType,
          strB "Content-Encoding: " ++ r.ContentEncoding,
          strB "Content-Length: " ++ intToDec r.ContentLength], (13 : Nat) ∉ l :=
        List.forall_mem_cons.mpr ⟨hstat13, List.forall_mem_cons.mpr ⟨hct13L,
          List.forall_mem_cons.mpr ⟨hce13L, List.forall_mem_cons.mpr ⟨hcl13L, by simp⟩⟩⟩⟩
      rw [ResponseDecoder, ResponseEncoder_eq,
        if_pos h1, if_pos ⟨h2, hcen⟩,
        show ([r.Version ++ 32 :: r.StatusCode ++ strB " OK"]
            ++ [strB "Content-Type: " ++ r.ContentType]
            ++ [strB "Content-Encoding: " ++ r.ContentEncoding]
            ++ [strB "Content-Length: " ++ intToDec r.ContentLength] : List (List Nat))
          = [r.Version ++ 32 :: r.StatusCode ++ strB " OK",
             strB "Content-Type: " ++ r.ContentType,
             strB "Content-Encoding: " ++ r.ContentEncoding,
             strB "Content-Length: " ++ intToDec r.ContentLength] from rfl,
        splitSep2_linesJoin _ r.Data hmemL]
      show respDecodeLines ((r.Version ++ 32 :: r.StatusCode ++ strB " OK") ::
        ([strB "Content-Type: " ++ r.ContentType,
          strB "Content-Encoding: " ++ r.ContentEncoding,
          strB "Content-Length: " ++ intToDec r.ContentLength]
          ++ [] :: splitSep2 13 10 r.Data)) = r
      rw [respDecodeLines_cons]
      simp only [hstat]
      rw [respScan_cons0 _ _ _ hstatne,
        respScan_append [strB "Content-Type: " ++ r.ContentType,
            strB "Content-Encoding: " ++ r.ContentEncoding,
            strB "Content-Length: " ++ intToDec r.ContentLength] _
          (splitSep2 13 10 r.Data) 1 le_rfl
          (List.forall_mem_cons.mpr ⟨hctne, List.forall_mem_cons.mpr ⟨hcene,
            List.forall_mem_cons.mpr ⟨hclne, by simp⟩⟩⟩)]
      simp only [List.foldl_cons, List.foldl_nil]
      rw [applyRespHeader_CT, applyRespHeader_CE, applyRespHeader_CL _ _ _ hz]
      rw [if_pos (cond_headers _ _ _ hsplitne), drop_headers, joinSep2_splitSep2]
      show _ = (⟨r.Version, r.StatusCode, r.ContentType, r.ContentEncoding,
        r.ContentLength, r.Data⟩ : HttpResponse)
      simp [List.getD_cons_zero, List.getD_cons_succ]

/-- The record of the C1 counterexample: an otherwise ordinary response whose
content-encoding is the literal "none". -/
def respNone : HttpResponse := ⟨strB "HTTP/1.1", strB "200", [], strB "none", 0, []⟩

/-- C1 counterexample: `respNone` satisfies the claim's hypothesis (its
content-length equals its data length) yet does not survive the round trip:
the "none" content-encoding is omitted on the wire and decodes back as the
empty string. -/
theorem response_roundtrip_fails :
    respNone.ContentLength = (respNone.Data.length : Int)
      ∧ ResponseDecoder (ResponseEncoder respNone) ≠ respNone := by
  decide

/-- C1 witness: the amended round trip at a concrete response whose binary
body consists entirely of CRLF bytes. -/
theorem response_roundtrip_witness :
    ResponseDecoder (ResponseEncoder ⟨strB "HTTP/1.1", strB "200",
        strB "application/json", strB "gzip", 4, [13, 10, 13, 10]⟩)
      = ⟨strB "HTTP/1.1", strB "200", strB "application/json", strB "gzip", 4,
          [13, 10, 13, 10]⟩ :=
  response_roundtrip _ (by decide) (by decide) (by decide) (by decide) (by decide)
    (by decide) (by decide) (by decide)

/-! ## Claim C9 — framer assembly and stop conditions -/

theorem fetchLoop_cons (acc c : List Nat) (cs : List (List Nat)) :
    fetchLoop acc (c :: cs) =
      (if frameDone (acc ++ c) then acc ++ c
       else if c.length < BUFFER_SIZE then acc ++ c
       else fetchLoop (acc ++ c) cs) := rfl

theorem isPrefixOf_append_right : ∀ (p l y : List Nat),
    p.isPrefixOf l = true → p.isPrefixOf (l ++ y) = true
  | [], _, _, _ => by simp [List.isPrefixOf]
  | a :: p', [], y, h => by simp [List.isPrefixOf] at h
  | a :: p', b :: l', y, h => by
    simp only [List.isPrefixOf, List.cons_append, Bool.and_eq_true, beq_iff_eq] at h ⊢
    exact ⟨h.1, isPrefixOf_append_right p' l' y h.2⟩

theorem idxOfSeq_cons (pat : List Nat) (c : Nat) (rest : List Nat) :
    idxOfSeq pat (c :: rest) =
      (if pat.isPrefixOf (c :: rest) then some 0
       else (idxOfSeq pat rest).map (· + 1)) := rfl

theorem idxOfSeq_nil_of_append (pat : List Nat) :
    ∀ (x y : List Nat), idxOfSeq pat (x ++ y) = none → idxOfSeq pat x = none
  | [], y, h => by
    have hp : pat ≠ [] := by
      intro hpe
      subst hpe
      cases y with
      | nil => simp [idxOfSeq] at h
      | cons c rest => simp [idxOfSeq, List.isPrefixOf] at h
    simp [idxOfSeq, hp]
  | c :: x', y, h => by
    rw [List.cons_append, idxOfSeq_cons] at h
    rw [idxOfSeq_cons]
    by_cases hpre : pat.isPrefixOf (c :: (x' ++ y)) = true
    · rw [if_pos hpre] at h
      exact absurd h (by simp)
    · rw [if_neg hpre] at h
      have hin : idxOfSeq pat (x' ++ y) = none := by
        cases hi : idxOfSeq pat (x' ++ y) with
        | none => rfl
        | some i => rw [hi] at h; simp at h
      have hpre2 : ¬ pat.isPrefixOf (c :: x') = true := by
        intro hp2
        exact hpre (by
          have := isPrefixOf_append_right pat (c :: x') y hp2
          simpa using this)
      rw [if_neg hpre2, idxOfSeq_nil_of_append pat x' y hin]
      rfl

theorem frameDone_of_no_term (acc : List Nat)
    (h : idxOfSeq (strB "\r\n\r\n") acc = none) : frameDone acc = false := by
  unfold frameDone
  rw [h]

/-- The Fetch loop consumes exactly the first `k` chunks and returns their
concatenation when the accumulated bytes first satisfy the exit test at
chunk `k` and every earlier chunk fills the read buffer exactly. -/
theorem fetchLoop_complete : ∀ (chunks : List (List Nat)) (acc : List Nat) (k : Nat),
    0 < k → k ≤ chunks.length →
    frameDone (acc ++ (chunks.take k).flatten) = true →
    (∀ j < k, frameDone (acc ++ (chunks.take j).flatten) = false) →
    (∀ j, j + 1 < k → (chunks.getD j []).length = BUFFER_SIZE) →
    fetchLoop acc chunks = acc ++ (chunks.take k).flatten
  | [], _, k, hk, hlen, _, _, _ => by
    simp only [List.length_nil] at hlen
    omega
  | c :: cs, acc, k, hk, hlen, hdone, hmin, hfull => by
    obtain ⟨k', rfl⟩ : ∃ k', k = k' + 1 := ⟨k - 1, by omega⟩
    rw [fetchLoop_cons]
    cases Nat.eq_zero_or_pos k' with
    | inl hz =>
      subst hz
      simp only [List.take_succ_cons, List.take_zero, List.flatten_cons, List.flatten_nil,
        List.append_nil] at hdone ⊢
      rw [if_pos hdone]
    | inr hpos =>
      have hnd := hmin 1 (by omega)
      simp only [List.take_succ_cons, List.take_zero, List.flatten_cons, List.flatten_nil,
        List.append_nil] at hnd
      rw [if_neg (by simp [hnd])]
      have hc := hfull 0 (by omega)
      simp only [List.getD_cons_zero] at hc
      rw [if_neg (by rw [hc]; exact lt_irrefl _)]
      have ih := fetchLoop_complete cs (acc ++ c) k' hpos
        (by simp only [List.length_cons] at hlen; omega)
        (by simpa [List.take_succ_cons, List.flatten_cons, List.append_assoc] using hdone)
        (fun j hj => by
          have := hmin (j + 1) (by omega)
          simpa [List.take_succ_cons, List.flatten_cons, List.append_assoc] using this)
        (fun j hj => by
          have := hfull (j + 1) (by omega)
          simpa [List.getD_cons_succ] using this)
      rw [ih, List.take_succ_cons, List.flatten_cons, ← List.append_assoc]

/-- When the terminator never appears, the Fetch loop stops right after the
first chunk shorter than the read buffer, returning what was accumulated. -/
theorem fetchLoop_short : ∀ (chunks : List (List Nat)) (acc : List Nat) (m : Nat),
    idxOfSeq (strB "\r\n\r\n") (acc ++ chunks.flatten) = none →
    m < chunks.length →
    (chunks.getD m []).length < BUFFER_SIZE →
    (∀ j < m, ¬ (chunks.getD j []).length < BUFFER_SIZE) →
    fetchLoop acc chunks = acc ++ (chunks.take (m + 1)).flatten
  | [], _, m, _, hm, _, _ => by simp at hm
  | c :: cs, acc, m, hterm, hm, hshort, hmin => by
    rw [fetchLoop_cons]
    have hfd : frameDone (acc ++ c) = false := by
      apply frameDone_of_no_term
      apply idxOfSeq_nil_of_append (strB "\r\n\r\n") (acc ++ c) cs.flatten
      simpa [List.flatten_cons, List.append_assoc] using hterm
    rw [if_neg (by simp [hfd])]
    cases Nat.eq_zero_or_pos m with
    | inl hz =>
      subst hz
      simp only [List.getD_cons_zero] at hshort
      rw [if_pos hshort]
      simp
    | inr hpos =>
      have hc : ¬ c.length < BUFFER_SIZE := by
        have := hmin 0 hpos
        simpa using this
      rw [if_neg hc]
      obtain ⟨m', rfl⟩ : ∃ m', m = m' + 1 := ⟨m - 1, by omega⟩
      have ih := fetchLoop_short cs (acc ++ c) m'
        (by simpa [List.flatten_cons, List.append_assoc] using hterm)
        (by simp only [List.length_cons] at hm; omega)
        (by simpa [List.getD_cons_succ] using hshort)
        (fun j hj => by
          have := hmin (j + 1) (by omega)
          simpa [List.getD_cons_succ] using this)
      rw [ih, List.take_succ_cons, List.flatten_cons, ← List.append_assoc]

/-- C9 (amended): over a list of chunks each of size at most the read-buffer
capacity, (a) if the accumulated bytes first satisfy the exit test
(terminator present and declared Content-Length reached, absent or
unparseable declarations counting as 0) after chunk `k`, and every chunk
before `k` fills the buffer exactly, the loop consumes exactly the first `k`
chunks and returns their concatenation, reading no further chunk; (b) if
the terminator never appears in the stream, the loop stops right after the
first chunk shorter than the buffer capacity, returning the concatenation
of the chunks consumed so far. -/
theorem fetch_framing (chunks : List (List Nat))
    (_hsize : ∀ c ∈ chunks, c.length ≤ BUFFER_SIZE) :
    (∀ k, 0 < k → k ≤ chunks.length →
      frameDone ((chunks.take k).flatten) = true →
      (∀ j < k, frameDone ((chunks.take j).flatten) = false) →
      (∀ j, j + 1 < k → (chunks.getD j []).length = BUFFER_SIZE) →
      fetchLoop [] chunks = (chunks.take k).flatten)
    ∧ (idxOfSeq (strB "\r\n\r\n") chunks.flatten = none →
      ∀ m, m < chunks.length → (chunks.getD m []).length < BUFFER_SIZE →
      (∀ j < m, ¬ (chunks.getD j []).length < BUFFER_SIZE) →
      fetchLoop [] chunks = (chunks.take (m + 1)).flatten) := by
  constructor
  · intro k hk hlen hdone hmin hfull
    have h := fetchLoop_complete chunks [] k hk hlen (by simpa using hdone)
      (fun j hj => by simpa using hmin j hj) hfull
    simpa using h
  · intro hterm m hm hshort hmin
    have h := fetchLoop_short chunks [] m (by simpa using hterm) hm hshort hmin
    simpa using h

/-- C9 counterexample: with the chunk list [[], "x\r\n\r\n"] the terminator
appears and the declared Content-Length (absent, hence 0) is reached at the
second chunk, yet the loop stops after the first (empty, hence shorter than
the buffer) chunk and never reads the condition-satisfying one. -/
theorem fetch_framing_fails :
    frameDone ((([[], strB "x\r\n\r\n"] : List (List Nat)).take 2).flatten) = true
      ∧ fetchLoop [] [[], strB "x\r\n\r\n"] = []
      ∧ fetchLoop [] [[], strB "x\r\n\r\n"]
          ≠ (([[], strB "x\r\n\r\n"] : List (List Nat)).take 2).flatten := by
  decide

/-- C9 witness: a single chunk holding a complete header block with no
Content-Length is consumed and returned whole. -/
theorem fetch_framing_witness :
    fetchLoop [] [strB "x\r\n\r\n"]
      = (([strB "x\r\n\r\n"] : List (List Nat)).take 1).flatten :=
  (fetch_framing [strB "x\r\n\r\n"] (by decide)).1 1 (by decide) (by decide) (by decide)
    (by decide) (fun j hj => absurd hj (by omega))

end Jarkom
